import Mathlib

/-!
Verification of the CPU batched matrix-vector primitive
(`crabml-core/src/backends/cpu/primitives/batch_matmul_vec.rs`).

The embedding is shallow: buffers of 32-bit floats become lists of exact
numbers (`Int`), a panic (failed assertion, out-of-range index) becomes
`none`, and the `Result` channel of the orchestrator becomes an `Except`
value inside the `Option`.  Loops become folds over the list of loop
indices.  The dot-product kernels are written over an abstract arithmetic
signature so that the same text can be read over exact integers and over
formal expressions that record the additive structure of the computation.
-/

set_option maxHeartbeats 1000000

/-- Error type of the crate (`crate::error::Error`); `batch_matmul_vec`
declares it in its return type but never constructs it. -/
inductive CrabmlError : Type
  | generic : CrabmlError
deriving DecidableEq

/-- Shape/stride descriptor (`tensor::TensorStrider`): ordered dimension
sizes paired with ordered per-dimension element strides. -/
structure TensorStrider : Type where
  shape : List Nat
  strides : List Nat
deriving DecidableEq

/-- Modelled from the spec: `TensorStrider`'s row-major layout.  The
descriptor type itself is not under `src/` (only its caller is); the spec
defines contiguity as "true iff strides match the row-major layout implied
by the shape".  Each dimension's row-major stride is the product of the
dimension sizes to its right. -/
def rowMajorStrides : List Nat → List Nat
  | [] => []
  | _ :: rest => (rest.foldl (fun x y => x * y) 1) :: rowMajorStrides rest

/-- Modelled from the spec: the contiguity predicate of the descriptor
(`TensorStrider::is_contiguous`), true iff the strides match the row-major
layout implied by the shape. -/
def TensorStrider.is_contiguous (s : TensorStrider) : Bool :=
  s.strides == rowMajorStrides s.shape

/-- Arithmetic operations abstracted, so the kernel text can be read both
over exact numbers and over formal expressions recording the evaluation
structure. -/
structure ArithOps (α : Type) : Type where
  add : α → α → α
  mul : α → α → α
  zero : α

/-- Exact integer arithmetic (the reading of the kernels in which `f32`
addition and multiplication are exact). -/
def intOps : ArithOps Int :=
  ⟨fun x y => x + y, fun x y => x * y, 0⟩

/-- Formal arithmetic expressions: a value of this type records exactly how
a result was built from the input values (`var` leaves). -/
inductive FExpr : Type
  | var : Nat → FExpr
  | zero : FExpr
  | add : FExpr → FExpr → FExpr
  | mul : FExpr → FExpr → FExpr
deriving DecidableEq

/-- The expression reading of the arithmetic signature. -/
def exprOps : ArithOps FExpr :=
  ⟨FExpr.add, FExpr.mul, FExpr.zero⟩

/-- Run a loop body over the given list of loop indices, threading the
loop state; `none` models a panic inside the loop body. -/
def foldSteps {σ : Type} (f : σ → Nat → Option σ) (s : σ) : List Nat → Option σ
  | [] => some s
  | i :: is => (f s i).bind (fun t => foldSteps f t is)

/-- One `sum += a[a_base + ki * a_stride] * b[ki]` statement of the source:
both reads are bounds-checked (`none` models the panic of an out-of-range
index). -/
def addProdM {α : Type} (ops : ArithOps α) (a : List α) (base stride : Nat) (b : List α)
    (sum : α) (ki : Nat) : Option α :=
  (a[base + ki * stride]?).bind fun x =>
    (b[ki]?).bind fun y => some (ops.add sum (ops.mul x y))

/-- The indices visited by a kernel's unrolled main loop: groups of `w`
consecutive indices starting at each multiple of `w` below `k - k % w`
(the source's `k_rounded`). -/
def grouped_indices (w k : Nat) : List Nat :=
  (List.range ((k - k % w) / w)).flatMap (fun g => (List.range w).map (fun j => w * g + j))

/-- The indices visited by a kernel's remainder loop: `k - k % w` up to
`k`, in ascending order. -/
def rem_indices (w k : Nat) : List Nat :=
  List.range' (k - k % w) (k % w)

/-- The body of the main loop of `dot_product_f32_fallback`: the four
unrolled `sum += a[a_base + (ki+j) * a_stride] * b[ki+j]` statements for
one group, `ki = 4 * g`. -/
def fbGroup {α : Type} (ops : ArithOps α) (a : List α) (a_base a_stride : Nat) (b : List α)
    (sum : α) (g : Nat) : Option α :=
  (addProdM ops a a_base a_stride b sum (4 * g)).bind fun s1 =>
    (addProdM ops a a_base a_stride b s1 (4 * g + 1)).bind fun s2 =>
      (addProdM ops a a_base a_stride b s2 (4 * g + 2)).bind fun s3 =>
        addProdM ops a a_base a_stride b s3 (4 * g + 3)

/-- Generic form of `dot_product_f32_fallback`: a single running `sum`;
the main loop handles the indices below `k_rounded = k - k % 4` in groups
of four unrolled statements, the remainder loop handles the rest one at a
time in ascending order. -/
def dot_fallback {α : Type} (ops : ArithOps α) (a : List α) (a_base a_stride k : Nat)
    (b : List α) : Option α :=
  (foldSteps (fbGroup ops a a_base a_stride b) ops.zero (List.range ((k - k % 4) / 4))).bind
    fun sum =>
      foldSteps (addProdM ops a a_base a_stride b) sum (List.range' (k - k % 4) (k % 4))

/-- `dot_product_f32_fallback`, read over exact integer arithmetic. -/
def dot_product_f32_fallback (a : List Int) (a_base a_stride k : Nat) (b : List Int) :
    Option Int :=
  dot_fallback intOps a a_base a_stride k b

/-- Follows the spec's words for the scalar fallback, for comparison with
the source: "process elements in groups of 4 using four independent
accumulation lines that are summed together per group"; each group's four
product lines are formed independently of the running sum, summed
together, and the group total is then added to the running sum.  The
remainder policy is the one shared with the source. -/
def specLanesGroup {α : Type} (ops : ArithOps α) (a : List α) (a_base a_stride : Nat)
    (b : List α) (sum : α) (g : Nat) : Option α :=
  (a[a_base + (4 * g) * a_stride]?).bind fun x0 =>
    (b[4 * g]?).bind fun y0 =>
      (a[a_base + (4 * g + 1) * a_stride]?).bind fun x1 =>
        (b[4 * g + 1]?).bind fun y1 =>
          (a[a_base + (4 * g + 2) * a_stride]?).bind fun x2 =>
            (b[4 * g + 2]?).bind fun y2 =>
              (a[a_base + (4 * g + 3) * a_stride]?).bind fun x3 =>
                (b[4 * g + 3]?).bind fun y3 =>
                  some (ops.add sum
                    (ops.add (ops.add (ops.mul x0 y0) (ops.mul x1 y1))
                      (ops.add (ops.mul x2 y2) (ops.mul x3 y3))))

/-- The scalar fallback as the spec's words describe it (see
`specLanesGroup`); used only to compare the spec's claimed accumulation
structure with the source's. -/
def dot_fallback_spec_lanes {α : Type} (ops : ArithOps α) (a : List α)
    (a_base a_stride k : Nat) (b : List α) : Option α :=
  (foldSteps (specLanesGroup ops a a_base a_stride b) ops.zero
      (List.range ((k - k % 4) / 4))).bind
    fun sum =>
      foldSteps (addProdM ops a a_base a_stride b) sum (List.range' (k - k % 4) (k % 4))

/-- Four-lane vector accumulator (`float32x4_t`). -/
def V4 : Type := Int × Int × Int × Int

/-- The body of the main loop of the aarch64 `dot_product_f32_simd`: for
`ki = 8 * g`, the eight strided loads from `a` (the source's `av_tmp`
gather), the two contiguous four-wide loads from `b`, and the two fused
multiply-accumulates into `sumv0` and `sumv1`.  The source reads `a`
through raw pointers; an out-of-bounds read, undefined behaviour in the
source, is modelled as `none`.  Fused multiply-add is exact here. -/
def neonGroup (a : List Int) (a_base a_stride : Nat) (b : List Int)
    (sv : V4 × V4) (g : Nat) : Option (V4 × V4) :=
  (a[a_base + (8 * g) * a_stride]?).bind fun x0 =>
    (a[a_base + (8 * g + 1) * a_stride]?).bind fun x1 =>
      (a[a_base + (8 * g + 2) * a_stride]?).bind fun x2 =>
        (a[a_base + (8 * g + 3) * a_stride]?).bind fun x3 =>
          (a[a_base + (8 * g + 4) * a_stride]?).bind fun x4 =>
            (a[a_base + (8 * g + 5) * a_stride]?).bind fun x5 =>
              (a[a_base + (8 * g + 6) * a_stride]?).bind fun x6 =>
                (a[a_base + (8 * g + 7) * a_stride]?).bind fun x7 =>
                  (b[8 * g]?).bind fun y0 =>
                    (b[8 * g + 1]?).bind fun y1 =>
                      (b[8 * g + 2]?).bind fun y2 =>
                        (b[8 * g + 3]?).bind fun y3 =>
                          (b[8 * g + 4]?).bind fun y4 =>
                            (b[8 * g + 5]?).bind fun y5 =>
                              (b[8 * g + 6]?).bind fun y6 =>
                                (b[8 * g + 7]?).bind fun y7 =>
                                  some
                                    ((sv.1.1 + x0 * y0, sv.1.2.1 + x1 * y1,
                                        sv.1.2.2.1 + x2 * y2, sv.1.2.2.2 + x3 * y3),
                                      (sv.2.1 + x4 * y4, sv.2.2.1 + x5 * y5,
                                        sv.2.2.2.1 + x6 * y6, sv.2.2.2.2 + x7 * y7))

/-- The aarch64 `dot_product_f32_simd`: two four-lane accumulators over
groups of 8, horizontal reduction of both (`vaddvq_f32`) summed into a
scalar, then the scalar remainder loop added onto that running sum. -/
def dot_product_f32_simd_aarch64 (a : List Int) (a_base a_stride k : Nat) (b : List Int) :
    Option Int :=
  (foldSteps (neonGroup a a_base a_stride b) ((0, 0, 0, 0), (0, 0, 0, 0))
      (List.range ((k - k % 8) / 8))).bind
    fun sv =>
      foldSteps (addProdM intOps a a_base a_stride b)
        ((sv.1.1 + sv.1.2.1 + sv.1.2.2.1 + sv.1.2.2.2) +
          (sv.2.1 + sv.2.2.1 + sv.2.2.2.1 + sv.2.2.2.2))
        (List.range' (k - k % 8) (k % 8))

/-- Eight-lane vector accumulator (`__m256`). -/
def V8 : Type := Int × Int × Int × Int × Int × Int × Int × Int

/-- The body of the main loop of the x86_64/avx2 `dot_product_f32_simd`:
for `ki = 8 * g`, the eight strided loads
`av_tmp[i] = *a_ptr.add(ki * a_stride + i * a_stride)`, the one contiguous
eight-wide load from `b`, and the single fused multiply-accumulate into
`sumv`.  Raw-pointer reads are modelled as in `neonGroup`. -/
def avxGroup (a : List Int) (a_base a_stride : Nat) (b : List Int)
    (sv : V8) (g : Nat) : Option V8 :=
  (a[a_base + 8 * g * a_stride + 0 * a_stride]?).bind fun x0 =>
    (a[a_base + 8 * g * a_stride + 1 * a_stride]?).bind fun x1 =>
      (a[a_base + 8 * g * a_stride + 2 * a_stride]?).bind fun x2 =>
        (a[a_base + 8 * g * a_stride + 3 * a_stride]?).bind fun x3 =>
          (a[a_base + 8 * g * a_stride + 4 * a_stride]?).bind fun x4 =>
            (a[a_base + 8 * g * a_stride + 5 * a_stride]?).bind fun x5 =>
              (a[a_base + 8 * g * a_stride + 6 * a_stride]?).bind fun x6 =>
                (a[a_base + 8 * g * a_stride + 7 * a_stride]?).bind fun x7 =>
                  (b[8 * g]?).bind fun y0 =>
                    (b[8 * g + 1]?).bind fun y1 =>
                      (b[8 * g + 2]?).bind fun y2 =>
                        (b[8 * g + 3]?).bind fun y3 =>
                          (b[8 * g + 4]?).bind fun y4 =>
                            (b[8 * g + 5]?).bind fun y5 =>
                              (b[8 * g + 6]?).bind fun y6 =>
                                (b[8 * g + 7]?).bind fun y7 =>
                                  some
                                    (sv.1 + x0 * y0, sv.2.1 + x1 * y1, sv.2.2.1 + x2 * y2,
                                      sv.2.2.2.1 + x3 * y3, sv.2.2.2.2.1 + x4 * y4,
                                      sv.2.2.2.2.2.1 + x5 * y5, sv.2.2.2.2.2.2.1 + x6 * y6,
                                      sv.2.2.2.2.2.2.2 + x7 * y7)

/-- The x86_64/avx2 `dot_product_f32_simd`: one eight-lane accumulator
over groups of 8; the lanes are stored out and summed left to right from
`0.0` (`sum_arr.iter().sum()`); the remainder is accumulated into a
separate `scalar_sum` starting from `0.0`, and the result is
`partial_sum + scalar_sum`. -/
def dot_product_f32_simd_avx2 (a : List Int) (a_base a_stride k : Nat) (b : List Int) :
    Option Int :=
  (foldSteps (avxGroup a a_base a_stride b) (0, 0, 0, 0, 0, 0, 0, 0)
      (List.range ((k - k % 8) / 8))).bind
    fun sv =>
      (foldSteps (addProdM intOps a a_base a_stride b) 0
          (List.range' (k - k % 8) (k % 8))).bind
        fun scalar_sum =>
          some ((0 + sv.1 + sv.2.1 + sv.2.2.1 + sv.2.2.2.1 + sv.2.2.2.2.1 +
              sv.2.2.2.2.2.1 + sv.2.2.2.2.2.2.1 + sv.2.2.2.2.2.2.2) + scalar_sum)

/-- `dot_product_f32` dispatches at compile time on the target
architecture (aarch64 and x86_64+avx2 get the SIMD variant, everything
else the portable fallback); the variants agree over exact arithmetic
(proved below), and this model uses the portable fallback. -/
def dot_product_f32 (a : List Int) (a_base a_stride k : Nat) (b : List Int) : Option Int :=
  dot_product_f32_fallback a a_base a_stride k b

/-- The per-task index derivation of the parallel loop:
`let mi = i % m; let bi = (i - mi) / m`, returned in source order
`(mi, bi)`. -/
def derive_mi_bi (m i : Nat) : Nat × Nat :=
  (i % m, (i - i % m) / m)

/-- A Rust slice `&buf[s..e]`: panics (`none`) unless `s ≤ e ≤ buf.len()`. -/
def sliceRange {α : Type} (l : List α) (s e : Nat) : Option (List α) :=
  if s ≤ e ∧ e ≤ l.length then some ((l.drop s).take (e - s)) else none

/-- The parallel fill of the output buffer: slot `i` receives the value
computed by `body i`; a `none` from any slot models a panic propagated out
of the parallel loop after the join. -/
def writeSlots (body : Nat → Option Int) : List Nat → Option (List Int)
  | [] => some []
  | i :: is =>
    (body i).bind fun v => (writeSlots body is).bind fun vs => some (v :: vs)

/-- The four assertions at the top of `batch_matmul_vec`, in source
order: A has 3 dimensions, B has 2, the batch sizes match, the inner
dimensions match, and B is contiguous. -/
def bmv_checks (strider1 strider2 : TensorStrider) : Bool :=
  (strider1.shape.length == 3) && (strider2.shape.length == 2) &&
    (strider1.shape.getD 0 0 == strider2.shape.getD 0 0) &&
    (strider1.shape.getD 2 0 == strider2.shape.getD 1 0) &&
    strider2.is_contiguous

/-- `batch_matmul_vec`: runs the assertions, reads `m`, `k` and A's three
strides from the descriptors, then fills every slot `i` of the output
buffer in parallel with
`dot_product_f32(a, bi*bi_stride + mi*mi_stride, ki_stride, k, b[bi*k .. (bi+1)*k])`
where `mi = i % m`, `bi = (i - mi) / m`.  `none` models a panic (a failed
assertion or an out-of-range access); `some (Except.ok out)` models the
return value `Ok(())` together with the final contents `out` of the output
buffer.  The `Err` variant of the declared `Result` channel is never
produced. -/
def batch_matmul_vec (a b c : List Int) (strider1 strider2 : TensorStrider) :
    Option (Except CrabmlError (List Int)) :=
  if bmv_checks strider1 strider2 then
    let m := strider1.shape.getD 1 0
    let k := strider1.shape.getD 2 0
    (strider1.strides[0]?).bind fun bi_stride =>
      (strider1.strides[1]?).bind fun mi_stride =>
        (strider1.strides[2]?).bind fun ki_stride =>
          (writeSlots
              (fun i =>
                let mi := (derive_mi_bi m i).1
                let bi := (derive_mi_bi m i).2
                (sliceRange b (bi * k) ((bi + 1) * k)).bind fun bslice =>
                  dot_product_f32 a (bi * bi_stride + mi * mi_stride) ki_stride k bslice)
              (List.range c.length)).bind
            fun out => some (Except.ok out)
  else none

/-- The `ki`-th product read by the dot kernels, with out-of-range reads
defaulted to 0 (only ever used under in-bounds hypotheses). -/
def prodAt (a : List Int) (base stride : Nat) (b : List Int) (ki : Nat) : Int :=
  (a[base + ki * stride]?).getD 0 * (b[ki]?).getD 0

/-- The mathematical dot product `Σ_{ki<k} a[base + ki*stride] * b[ki]`
over exact arithmetic. -/
def dotSum (a : List Int) (base stride k : Nat) (b : List Int) : Int :=
  ((List.range k).map (prodAt a base stride b)).sum

/-- The exact value held by lane `j` of an eight-wide accumulation after
`G` groups of the SIMD main loops: `Σ_{g<G} a[base+(8g+j)*stride]*b[8g+j]`. -/
def laneSum (a : List Int) (base stride : Nat) (b : List Int) (G j : Nat) : Int :=
  ((List.range G).map (fun g => prodAt a base stride b (8 * g + j))).sum

deriving instance DecidableEq for Except

/-! ### Basic facts about the loop combinators -/

theorem bind_some_eta {α : Type} (o : Option α) : o.bind some = o := by
  cases o <;> rfl

theorem foldSteps_nil {σ : Type} (f : σ → Nat → Option σ) (s : σ) :
    foldSteps f s [] = some s := rfl

theorem foldSteps_cons {σ : Type} (f : σ → Nat → Option σ) (s : σ) (i : Nat) (is : List Nat) :
    foldSteps f s (i :: is) = (f s i).bind (fun t => foldSteps f t is) := rfl

theorem foldSteps_append {σ : Type} (f : σ → Nat → Option σ) (l1 l2 : List Nat) (s : σ) :
    foldSteps f s (l1 ++ l2) = (foldSteps f s l1).bind (fun t => foldSteps f t l2) := by
  induction l1 generalizing s with
  | nil => simp [foldSteps]
  | cons i is ih =>
    simp only [List.cons_append, foldSteps_cons]
    cases f s i with
    | none => simp
    | some t => simp [ih]

theorem foldSteps_flatMap {σ : Type} (f : σ → Nat → Option σ) (h : Nat → List Nat)
    (l : List Nat) (s : σ) :
    foldSteps f s (l.flatMap h) = foldSteps (fun t x => foldSteps f t (h x)) s l := by
  induction l generalizing s with
  | nil => rfl
  | cons i is ih =>
    rw [List.flatMap_cons, foldSteps_append, foldSteps_cons]
    cases foldSteps f s (h i) with
    | none => simp
    | some t => simp [ih]

/-! ### The scalar fallback flattens to a plain sequential accumulation -/

theorem fbGroup_eq_block {α : Type} (ops : ArithOps α) (a : List α) (a_base a_stride : Nat)
    (b : List α) (sum : α) (g : Nat) :
    fbGroup ops a a_base a_stride b sum g
      = foldSteps (addProdM ops a a_base a_stride b) sum
          ((List.range 4).map (fun j => 4 * g + j)) := by
  show fbGroup ops a a_base a_stride b sum g
    = foldSteps (addProdM ops a a_base a_stride b) sum [4 * g + 0, 4 * g + 1, 4 * g + 2, 4 * g + 3]
  simp only [foldSteps_cons, foldSteps_nil, fbGroup, Nat.add_zero]
  cases addProdM ops a a_base a_stride b sum (4 * g) with
  | none => simp
  | some s1 =>
    simp only [Option.some_bind]
    cases addProdM ops a a_base a_stride b s1 (4 * g + 1) with
    | none => simp
    | some s2 =>
      simp only [Option.some_bind]
      cases addProdM ops a a_base a_stride b s2 (4 * g + 2) with
      | none => simp
      | some s3 => simp [bind_some_eta]

theorem dot_fallback_eq_grouped {α : Type} (ops : ArithOps α) (a : List α)
    (a_base a_stride k : Nat) (b : List α) :
    dot_fallback ops a a_base a_stride k b
      = foldSteps (addProdM ops a a_base a_stride b) ops.zero
          (grouped_indices 4 k ++ rem_indices 4 k) := by
  rw [foldSteps_append]
  unfold dot_fallback grouped_indices rem_indices
  rw [foldSteps_flatMap]
  have hfun : (fbGroup ops a a_base a_stride b)
      = fun (t : α) (g : Nat) =>
          foldSteps (addProdM ops a a_base a_stride b) t
            ((List.range 4).map (fun j => 4 * g + j)) :=
    funext fun t => funext fun g => fbGroup_eq_block ops a a_base a_stride b t g
  rw [hfun]

theorem flatMap_blocks (w G : Nat) :
    (List.range G).flatMap (fun g => (List.range w).map (fun j => w * g + j))
      = List.range (w * G) := by
  induction G with
  | zero => simp
  | succ G ih =>
    rw [List.range_succ, List.flatMap_append, ih]
    simp only [List.flatMap_cons, List.flatMap_nil, List.append_nil]
    rw [Nat.mul_succ, List.range_add]

theorem grouped_rem_cover (w k : Nat) (hw : 0 < w) :
    grouped_indices w k ++ rem_indices w k = List.range k := by
  unfold grouped_indices rem_indices
  rw [flatMap_blocks]
  have h2 : k - k % w = w * (k / w) := by
    have h3 := Nat.div_add_mod k w
    omega
  have h1 : w * ((k - k % w) / w) = k - k % w := by
    rw [h2, Nat.mul_div_cancel_left _ hw]
  rw [h1, List.range_eq_range' (k - k % w), List.range_eq_range' k]
  have h4 := List.range'_append 0 (k - k % w) (k % w) 1
  have h5 : k % w + (k - k % w) = k := by
    have h6 := Nat.mod_le k w
    omega
  simp only [Nat.zero_add, Nat.one_mul] at h4
  rw [h4, h5]

theorem dot_fallback_eq_range {α : Type} (ops : ArithOps α) (a : List α)
    (a_base a_stride k : Nat) (b : List α) :
    dot_fallback ops a a_base a_stride k b
      = foldSteps (addProdM ops a a_base a_stride b) ops.zero (List.range k) := by
  rw [dot_fallback_eq_grouped, grouped_rem_cover 4 k (by omega)]

/-! ### Summation value of the accumulation loops under in-bounds reads -/

theorem getElem?_eq_some_getD {l : List Int} {i : Nat} (h : i < l.length) :
    l[i]? = some (l.getD i 0) := by
  rw [List.getD_eq_getElem?_getD, List.getElem?_eq_getElem h]
  rfl

theorem addProdM_int_eq {a : List Int} {base stride : Nat} {b : List Int} {ki : Nat}
    (hA : base + ki * stride < a.length) (hB : ki < b.length) (sum : Int) :
    addProdM intOps a base stride b sum ki = some (sum + prodAt a base stride b ki) := by
  unfold addProdM prodAt
  rw [getElem?_eq_some_getD hA, getElem?_eq_some_getD hB]
  simp [intOps]

theorem foldSteps_addProd_range' (a : List Int) (base stride : Nat) (b : List Int) :
    ∀ (n s0 : Nat) (acc : Int),
      (∀ j, j < n → base + (s0 + j) * stride < a.length) →
      (∀ j, j < n → s0 + j < b.length) →
      foldSteps (addProdM intOps a base stride b) acc (List.range' s0 n)
        = some (acc + ((List.range' s0 n).map (prodAt a base stride b)).sum) := by
  intro n
  induction n with
  | zero => intro s0 acc _ _; simp [foldSteps]
  | succ n ih =>
    intro s0 acc hA hB
    have hA0 : base + s0 * stride < a.length := by
      have := hA 0 (by omega); simpa using this
    have hB0 : s0 < b.length := by
      have := hB 0 (by omega); simpa using this
    rw [List.range'_succ, foldSteps_cons, addProdM_int_eq hA0 hB0, Option.some_bind]
    rw [ih (s0 + 1) _
      (fun j hj => by
        have h7 := hA (j + 1) (by omega)
        rw [show s0 + 1 + j = s0 + (j + 1) from by omega]
        exact h7)
      (fun j hj => by have := hB (j + 1) (by omega); omega)]
    simp only [List.map_cons, List.sum_cons]
    congr 1
    ring

theorem foldSteps_addProd_range (a : List Int) (base stride : Nat) (b : List Int)
    (k : Nat) (acc : Int)
    (hA : ∀ ki, ki < k → base + ki * stride < a.length)
    (hB : ∀ ki, ki < k → ki < b.length) :
    foldSteps (addProdM intOps a base stride b) acc (List.range k)
      = some (acc + dotSum a base stride k b) := by
  rw [List.range_eq_range', dotSum, List.range_eq_range']
  exact foldSteps_addProd_range' a base stride b k 0 acc
    (fun j hj => by
      have h7 := hA j (by omega)
      rw [show (0 : Nat) + j = j from by omega]
      exact h7)
    (fun j hj => by have := hB j (by omega); omega)

theorem dot_product_f32_fallback_eq_dotSum (a : List Int) (base stride k : Nat)
    (b : List Int)
    (hA : ∀ ki, ki < k → base + ki * stride < a.length)
    (hB : ∀ ki, ki < k → ki < b.length) :
    dot_product_f32_fallback a base stride k b = some (dotSum a base stride k b) := by
  unfold dot_product_f32_fallback
  rw [dot_fallback_eq_range, foldSteps_addProd_range a base stride b k _ hA hB]
  simp [intOps]

/-! ### The SIMD main loops: lane invariants -/

theorem laneSum_succ (a : List Int) (base stride : Nat) (b : List Int) (G j : Nat) :
    laneSum a base stride b (G + 1) j
      = laneSum a base stride b G j + prodAt a base stride b (8 * G + j) := by
  simp [laneSum, List.range_succ]

theorem neon_main (a : List Int) (base stride : Nat) (b : List Int) :
    ∀ (G : Nat),
      (∀ ki, ki < 8 * G → base + ki * stride < a.length) →
      (∀ ki, ki < 8 * G → ki < b.length) →
      foldSteps (neonGroup a base stride b) ((0, 0, 0, 0), (0, 0, 0, 0)) (List.range G)
        = some ((laneSum a base stride b G 0, laneSum a base stride b G 1,
            laneSum a base stride b G 2, laneSum a base stride b G 3),
            (laneSum a base stride b G 4, laneSum a base stride b G 5,
              laneSum a base stride b G 6, laneSum a base stride b G 7)) := by
  intro G
  induction G with
  | zero => intro _ _; simp [foldSteps, laneSum]
  | succ G ih =>
    intro hA hB
    rw [List.range_succ, foldSteps_append,
      ih (fun ki h => hA ki (by omega)) (fun ki h => hB ki (by omega)), Option.some_bind,
      foldSteps_cons]
    have e0 : a[base + 8 * G * stride]? = some (a.getD (base + 8 * G * stride) 0) :=
      getElem?_eq_some_getD (hA (8 * G) (by omega))
    have e1 : a[base + (8 * G + 1) * stride]? = some (a.getD (base + (8 * G + 1) * stride) 0) :=
      getElem?_eq_some_getD (hA (8 * G + 1) (by omega))
    have e2 : a[base + (8 * G + 2) * stride]? = some (a.getD (base + (8 * G + 2) * stride) 0) :=
      getElem?_eq_some_getD (hA (8 * G + 2) (by omega))
    have e3 : a[base + (8 * G + 3) * stride]? = some (a.getD (base + (8 * G + 3) * stride) 0) :=
      getElem?_eq_some_getD (hA (8 * G + 3) (by omega))
    have e4 : a[base + (8 * G + 4) * stride]? = some (a.getD (base + (8 * G + 4) * stride) 0) :=
      getElem?_eq_some_getD (hA (8 * G + 4) (by omega))
    have e5 : a[base + (8 * G + 5) * stride]? = some (a.getD (base + (8 * G + 5) * stride) 0) :=
      getElem?_eq_some_getD (hA (8 * G + 5) (by omega))
    have e6 : a[base + (8 * G + 6) * stride]? = some (a.getD (base + (8 * G + 6) * stride) 0) :=
      getElem?_eq_some_getD (hA (8 * G + 6) (by omega))
    have e7 : a[base + (8 * G + 7) * stride]? = some (a.getD (base + (8 * G + 7) * stride) 0) :=
      getElem?_eq_some_getD (hA (8 * G + 7) (by omega))
    have f0 : b[8 * G]? = some (b.getD (8 * G) 0) :=
      getElem?_eq_some_getD (hB (8 * G) (by omega))
    have f1 : b[8 * G + 1]? = some (b.getD (8 * G + 1) 0) :=
      getElem?_eq_some_getD (hB (8 * G + 1) (by omega))
    have f2 : b[8 * G + 2]? = some (b.getD (8 * G + 2) 0) :=
      getElem?_eq_some_getD (hB (8 * G + 2) (by omega))
    have f3 : b[8 * G + 3]? = some (b.getD (8 * G + 3) 0) :=
      getElem?_eq_some_getD (hB (8 * G + 3) (by omega))
    have f4 : b[8 * G + 4]? = some (b.getD (8 * G + 4) 0) :=
      getElem?_eq_some_getD (hB (8 * G + 4) (by omega))
    have f5 : b[8 * G + 5]? = some (b.getD (8 * G + 5) 0) :=
      getElem?_eq_some_getD (hB (8 * G + 5) (by omega))
    have f6 : b[8 * G + 6]? = some (b.getD (8 * G + 6) 0) :=
      getElem?_eq_some_getD (hB (8 * G + 6) (by omega))
    have f7 : b[8 * G + 7]? = some (b.getD (8 * G + 7) 0) :=
      getElem?_eq_some_getD (hB (8 * G + 7) (by omega))
    simp only [neonGroup, e0, e1, e2, e3, e4, e5, e6, e7, f0, f1, f2, f3, f4, f5, f6, f7,
      Option.some_bind, foldSteps_nil, bind_some_eta, laneSum_succ, prodAt,
      Option.getD_some, Nat.add_zero]

theorem lanes_total (a : List Int) (base stride : Nat) (b : List Int) :
    ∀ G : Nat,
      laneSum a base stride b G 0 + laneSum a base stride b G 1 +
          laneSum a base stride b G 2 + laneSum a base stride b G 3 +
          (laneSum a base stride b G 4 + laneSum a base stride b G 5 +
            laneSum a base stride b G 6 + laneSum a base stride b G 7)
        = ((List.range' 0 (8 * G)).map (prodAt a base stride b)).sum := by
  intro G
  induction G with
  | zero => simp [laneSum]
  | succ G ih =>
    have hsplit := List.range'_append 0 (8 * G) 8 1
    simp only [Nat.zero_add, Nat.one_mul] at hsplit
    rw [show 8 * (G + 1) = 8 + 8 * G from by omega, ← hsplit, List.map_append,
      List.sum_append, ← ih]
    simp only [laneSum_succ]
    show _ = _ + ((List.range' (8 * G) 8).map (prodAt a base stride b)).sum
    simp only [List.range']
    simp only [List.map_cons, List.map_nil, List.sum_cons, List.sum_nil, Nat.add_zero]
    ring

theorem dot_product_f32_simd_aarch64_eq_dotSum (a : List Int) (base stride k : Nat)
    (b : List Int)
    (hA : ∀ ki, ki < k → base + ki * stride < a.length)
    (hB : ∀ ki, ki < k → ki < b.length) :
    dot_product_f32_simd_aarch64 a base stride k b = some (dotSum a base stride k b) := by
  unfold dot_product_f32_simd_aarch64
  have hG : 8 * ((k - k % 8) / 8) = k - k % 8 := by omega
  rw [neon_main a base stride b ((k - k % 8) / 8)
      (fun ki h => hA ki (by omega)) (fun ki h => hB ki (by omega)), Option.some_bind,
    foldSteps_addProd_range' a base stride b (k % 8) (k - k % 8) _
      (fun j hj => hA _ (by omega)) (fun j hj => hB _ (by omega))]
  have ht := lanes_total a base stride b ((k - k % 8) / 8)
  rw [hG] at ht
  have hsplit := List.range'_append 0 (k - k % 8) (k % 8) 1
  simp only [Nat.zero_add, Nat.one_mul] at hsplit
  have hk : k % 8 + (k - k % 8) = k := by omega
  rw [hk] at hsplit
  have hfull : ((List.range' 0 (k - k % 8)).map (prodAt a base stride b)).sum
      + ((List.range' (k - k % 8) (k % 8)).map (prodAt a base stride b)).sum
      = dotSum a base stride k b := by
    rw [← List.sum_append, ← List.map_append, hsplit, dotSum, List.range_eq_range']
  dsimp only
  congr 1
  omega

theorem avx_main (a : List Int) (base stride : Nat) (b : List Int) :
    ∀ (G : Nat),
      (∀ ki, ki < 8 * G → base + ki * stride < a.length) →
      (∀ ki, ki < 8 * G → ki < b.length) →
      foldSteps (avxGroup a base stride b) (0, 0, 0, 0, 0, 0, 0, 0) (List.range G)
        = some (laneSum a base stride b G 0, laneSum a base stride b G 1,
            laneSum a base stride b G 2, laneSum a base stride b G 3,
            laneSum a base stride b G 4, laneSum a base stride b G 5,
            laneSum a base stride b G 6, laneSum a base stride b G 7) := by
  intro G
  induction G with
  | zero => intro _ _; simp [foldSteps, laneSum]
  | succ G ih =>
    intro hA hB
    rw [List.range_succ, foldSteps_append,
      ih (fun ki h => hA ki (by omega)) (fun ki h => hB ki (by omega)), Option.some_bind,
      foldSteps_cons]
    have e0 : a[base + 8 * G * stride + 0 * stride]?
        = some (a.getD (base + 8 * G * stride) 0) := by
      rw [show base + 8 * G * stride + 0 * stride = base + 8 * G * stride from by ring]
      exact getElem?_eq_some_getD (hA (8 * G) (by omega))
    have e1 : a[base + 8 * G * stride + 1 * stride]?
        = some (a.getD (base + (8 * G + 1) * stride) 0) := by
      rw [show base + 8 * G * stride + 1 * stride = base + (8 * G + 1) * stride from by ring]
      exact getElem?_eq_some_getD (hA (8 * G + 1) (by omega))
    have e2 : a[base + 8 * G * stride + 2 * stride]?
        = some (a.getD (base + (8 * G + 2) * stride) 0) := by
      rw [show base + 8 * G * stride + 2 * stride = base + (8 * G + 2) * stride from by ring]
      exact getElem?_eq_some_getD (hA (8 * G + 2) (by omega))
    have e3 : a[base + 8 * G * stride + 3 * stride]?
        = some (a.getD (base + (8 * G + 3) * stride) 0) := by
      rw [show base + 8 * G * stride + 3 * stride = base + (8 * G + 3) * stride from by ring]
      exact getElem?_eq_some_getD (hA (8 * G + 3) (by omega))
    have e4 : a[base + 8 * G * stride + 4 * stride]?
        = some (a.getD (base + (8 * G + 4) * stride) 0) := by
      rw [show base + 8 * G * stride + 4 * stride = base + (8 * G + 4) * stride from by ring]
      exact getElem?_eq_some_getD (hA (8 * G + 4) (by omega))
    have e5 : a[base + 8 * G * stride + 5 * stride]?
        = some (a.getD (base + (8 * G + 5) * stride) 0) := by
      rw [show base + 8 * G * stride + 5 * stride = base + (8 * G + 5) * stride from by ring]
      exact getElem?_eq_some_getD (hA (8 * G + 5) (by omega))
    have e6 : a[base + 8 * G * stride + 6 * stride]?
        = some (a.getD (base + (8 * G + 6) * stride) 0) := by
      rw [show base + 8 * G * stride + 6 * stride = base + (8 * G + 6) * stride from by ring]
      exact getElem?_eq_some_getD (hA (8 * G + 6) (by omega))
    have e7 : a[base + 8 * G * stride + 7 * stride]?
        = some (a.getD (base + (8 * G + 7) * stride) 0) := by
      rw [show base + 8 * G * stride + 7 * stride = base + (8 * G + 7) * stride from by ring]
      exact getElem?_eq_some_getD (hA (8 * G + 7) (by omega))
    have f0 : b[8 * G]? = some (b.getD (8 * G) 0) :=
      getElem?_eq_some_getD (hB (8 * G) (by omega))
    have f1 : b[8 * G + 1]? = some (b.getD (8 * G + 1) 0) :=
      getElem?_eq_some_getD (hB (8 * G + 1) (by omega))
    have f2 : b[8 * G + 2]? = some (b.getD (8 * G + 2) 0) :=
      getElem?_eq_some_getD (hB (8 * G + 2) (by omega))
    have f3 : b[8 * G + 3]? = some (b.getD (8 * G + 3) 0) :=
      getElem?_eq_some_getD (hB (8 * G + 3) (by omega))
    have f4 : b[8 * G + 4]? = some (b.getD (8 * G + 4) 0) :=
      getElem?_eq_some_getD (hB (8 * G + 4) (by omega))
    have f5 : b[8 * G + 5]? = some (b.getD (8 * G + 5) 0) :=
      getElem?_eq_some_getD (hB (8 * G + 5) (by omega))
    have f6 : b[8 * G + 6]? = some (b.getD (8 * G + 6) 0) :=
      getElem?_eq_some_getD (hB (8 * G + 6) (by omega))
    have f7 : b[8 * G + 7]? = some (b.getD (8 * G + 7) 0) :=
      getElem?_eq_some_getD (hB (8 * G + 7) (by omega))
    have g0 : a[base + 8 * G * stride]? = some (a.getD (base + 8 * G * stride) 0) :=
      getElem?_eq_some_getD (hA (8 * G) (by omega))
    have g1 : a[base + (8 * G + 1) * stride]? = some (a.getD (base + (8 * G + 1) * stride) 0) :=
      getElem?_eq_some_getD (hA (8 * G + 1) (by omega))
    have g2 : a[base + (8 * G + 2) * stride]? = some (a.getD (base + (8 * G + 2) * stride) 0) :=
      getElem?_eq_some_getD (hA (8 * G + 2) (by omega))
    have g3 : a[base + (8 * G + 3) * stride]? = some (a.getD (base + (8 * G + 3) * stride) 0) :=
      getElem?_eq_some_getD (hA (8 * G + 3) (by omega))
    have g4 : a[base + (8 * G + 4) * stride]? = some (a.getD (base + (8 * G + 4) * stride) 0) :=
      getElem?_eq_some_getD (hA (8 * G + 4) (by omega))
    have g5 : a[base + (8 * G + 5) * stride]? = some (a.getD (base + (8 * G + 5) * stride) 0) :=
      getElem?_eq_some_getD (hA (8 * G + 5) (by omega))
    have g6 : a[base + (8 * G + 6) * stride]? = some (a.getD (base + (8 * G + 6) * stride) 0) :=
      getElem?_eq_some_getD (hA (8 * G + 6) (by omega))
    have g7 : a[base + (8 * G + 7) * stride]? = some (a.getD (base + (8 * G + 7) * stride) 0) :=
      getElem?_eq_some_getD (hA (8 * G + 7) (by omega))
    simp only [avxGroup, e0, e1, e2, e3, e4, e5, e6, e7, f0, f1, f2, f3, f4, f5, f6, f7,
      Option.some_bind, foldSteps_nil, bind_some_eta, laneSum_succ, prodAt,
      g0, g1, g2, g3, g4, g5, g6, g7, Option.getD_some, Nat.add_zero]

theorem dot_product_f32_simd_avx2_eq_dotSum (a : List Int) (base stride k : Nat)
    (b : List Int)
    (hA : ∀ ki, ki < k → base + ki * stride < a.length)
    (hB : ∀ ki, ki < k → ki < b.length) :
    dot_product_f32_simd_avx2 a base stride k b = some (dotSum a base stride k b) := by
  unfold dot_product_f32_simd_avx2
  have hG : 8 * ((k - k % 8) / 8) = k - k % 8 := by omega
  rw [avx_main a base stride b ((k - k % 8) / 8)
      (fun ki h => hA ki (by omega)) (fun ki h => hB ki (by omega)), Option.some_bind,
    foldSteps_addProd_range' a base stride b (k % 8) (k - k % 8) 0
      (fun j hj => hA _ (by omega)) (fun j hj => hB _ (by omega)), Option.some_bind]
  have ht := lanes_total a base stride b ((k - k % 8) / 8)
  rw [hG] at ht
  have hsplit := List.range'_append 0 (k - k % 8) (k % 8) 1
  simp only [Nat.zero_add, Nat.one_mul] at hsplit
  have hk : k % 8 + (k - k % 8) = k := by omega
  rw [hk] at hsplit
  have hfull : ((List.range' 0 (k - k % 8)).map (prodAt a base stride b)).sum
      + ((List.range' (k - k % 8) (k % 8)).map (prodAt a base stride b)).sum
      = dotSum a base stride k b := by
    rw [← List.sum_append, ← List.map_append, hsplit, dotSum, List.range_eq_range']
  dsimp only
  congr 1
  omega

/-! ### Orchestrator helpers -/

theorem writeSlots_eq_map (body : Nat → Option Int) (gv : Nat → Int) :
    ∀ l : List Nat, (∀ i, i ∈ l → body i = some (gv i)) →
      writeSlots body l = some (l.map gv) := by
  intro l
  induction l with
  | nil => intro _; rfl
  | cons i is ih =>
    intro h
    show (body i).bind _ = _
    rw [h i (List.mem_cons_self i is), Option.some_bind,
      ih (fun j hj => h j (List.mem_cons_of_mem i hj)), Option.some_bind, List.map_cons]

theorem bmv_checks_eq_false {st1 st2 : TensorStrider}
    (h : st1.shape.length ≠ 3 ∨ st2.shape.length ≠ 2
        ∨ st1.shape.getD 0 0 ≠ st2.shape.getD 0 0
        ∨ st1.shape.getD 2 0 ≠ st2.shape.getD 1 0
        ∨ st2.is_contiguous = false) :
    bmv_checks st1 st2 = false := by
  unfold bmv_checks
  rcases h with h | h | h | h | h
  · simp [beq_iff_eq, h]
  · simp [beq_iff_eq, h]
  · rw [List.getD_eq_getElem?_getD, List.getD_eq_getElem?_getD] at h
    simp [beq_iff_eq, h]
  · rw [List.getD_eq_getElem?_getD, List.getD_eq_getElem?_getD] at h
    simp [beq_iff_eq, h]
  · simp [beq_iff_eq, h]

theorem batch_matmul_vec_none_of_checks_false (a b c : List Int)
    (st1 st2 : TensorStrider) (h : bmv_checks st1 st2 = false) :
    batch_matmul_vec a b c st1 st2 = none := by
  unfold batch_matmul_vec
  rw [h]
  simp

/-! ### Claim theorems -/

/-- C3: for every `b ≥ 1` and `m ≥ 1`, the per-task derivation
`mi = i % m`, `bi = (i - mi) / m` maps the flat range `[0, b*m)` onto
`[0,b) × [0,m)` bijectively: every derived pair is in range, and every
`(bi, mi)` pair is produced by exactly one flat index, so the parallel
tasks write pairwise-disjoint output slots and cover all of them. -/
theorem flat_index_derivation_bijective (bsz m : Nat) (hb : 1 ≤ bsz) (hm : 1 ≤ m) :
    (∀ i, i < bsz * m → (derive_mi_bi m i).1 < m ∧ (derive_mi_bi m i).2 < bsz)
    ∧ (∀ bi mi, bi < bsz → mi < m →
        ∃! i, i < bsz * m ∧ derive_mi_bi m i = (mi, bi)) := by
  constructor
  · intro i hi
    refine ⟨Nat.mod_lt i (by omega), ?_⟩
    show (i - i % m) / m < bsz
    rw [show i - i % m = m * (i / m) from by have := Nat.div_add_mod i m; omega,
      Nat.mul_div_cancel_left _ (by omega), Nat.div_lt_iff_lt_mul (by omega)]
    exact hi
  · intro bi mi hbi hmi
    have hmod : (bi * m + mi) % m = mi := by
      rw [show bi * m = m * bi from Nat.mul_comm bi m, Nat.mul_add_mod,
        Nat.mod_eq_of_lt hmi]
    refine ⟨bi * m + mi, ⟨?_, ?_⟩, ?_⟩
    · have h2 : (bi + 1) * m ≤ bsz * m := Nat.mul_le_mul_right m (by omega)
      have h3 : (bi + 1) * m = bi * m + m := Nat.succ_mul bi m
      omega
    · show ((bi * m + mi) % m, (bi * m + mi - (bi * m + mi) % m) / m) = (mi, bi)
      rw [hmod, Nat.add_sub_cancel, Nat.mul_div_cancel bi (by omega)]
    · rintro j ⟨hj, hderiv⟩
      have h1 : j % m = mi := congrArg Prod.fst hderiv
      have h2 : (j - j % m) / m = bi := congrArg Prod.snd hderiv
      have h3 := Nat.div_add_mod j m
      rw [show j - j % m = m * (j / m) from by omega,
        Nat.mul_div_cancel_left _ (by omega)] at h2
      have h6 : m * (j / m) = m * bi := by rw [h2]
      have h7 : m * bi = bi * m := Nat.mul_comm m bi
      omega

/-- C3 witness: at `b = 2`, `m = 3`, the pair `(bi, mi) = (1, 2)` is hit by
exactly one flat index. -/
theorem flat_index_derivation_bijective_witness :
    ∃! i, i < 2 * 3 ∧ derive_mi_bi 3 i = (2, 1) :=
  (flat_index_derivation_bijective 2 3 (by decide) (by decide)).2 1 2 (by decide) (by decide)

/-- C4: a violation of any of the checked preconditions (wrong number of
dimensions for A or B, mismatched batch sizes, mismatched inner dimensions,
non-contiguous B) makes the call abort — the model returns `none`, the
assertion firing before the output loop, so no slot value is ever
produced and the caller's buffer is untouched. -/
theorem checked_precondition_violation_aborts (a b c : List Int)
    (st1 st2 : TensorStrider)
    (h : st1.shape.length ≠ 3 ∨ st2.shape.length ≠ 2
        ∨ st1.shape.getD 0 0 ≠ st2.shape.getD 0 0
        ∨ st1.shape.getD 2 0 ≠ st2.shape.getD 1 0
        ∨ st2.is_contiguous = false) :
    batch_matmul_vec a b c st1 st2 = none :=
  batch_matmul_vec_none_of_checks_false a b c st1 st2 (bmv_checks_eq_false h)

/-- C4 witness: a descriptor with only one dimension for A aborts the call. -/
theorem checked_precondition_violation_aborts_witness :
    batch_matmul_vec [1] [1] [0] ⟨[1], [1]⟩ ⟨[1, 1], [1, 1]⟩ = none :=
  checked_precondition_violation_aborts [1] [1] [0] ⟨[1], [1]⟩ ⟨[1, 1], [1, 1]⟩
    (Or.inl (by decide))

/-- C5 counterexample: read over formal expressions that record the exact
accumulation structure, the source's scalar fallback (one running sum, four
sequential `sum += ...` statements per group) differs at `k = 4` from the
spec's description (four independent accumulation lines summed together
per group): the two computations build different expressions. -/
theorem fallback_four_lane_structure_counterexample :
    dot_fallback exprOps ((List.range 4).map FExpr.var) 0 1 4
        ((List.range 4).map (fun i => FExpr.var (10 + i)))
      ≠ dot_fallback_spec_lanes exprOps ((List.range 4).map FExpr.var) 0 1 4
          ((List.range 4).map (fun i => FExpr.var (10 + i))) := by
  decide

/-- C5 (amended): the scalar fallback accumulates each product into a
single running sum, sequentially in ascending index order — the grouping
by 4 does not alter the accumulation structure, and the elements whose
index is ≥ the largest multiple of 4 that is ≤ k are likewise added
individually afterward in ascending order.  Stated over every arithmetic
interpretation, in particular over formal expressions that record the
exact evaluation structure. -/
theorem fallback_sequential_accumulation :
    ∀ (α : Type) (ops : ArithOps α) (a : List α) (a_base a_stride k : Nat) (b : List α),
      dot_fallback ops a a_base a_stride k b
        = foldSteps (addProdM ops a a_base a_stride b) ops.zero (List.range k) :=
  fun _ ops a a_base a_stride k b => dot_fallback_eq_range ops a a_base a_stride k b

/-- C6: the unrolled main loop of the fallback visits exactly the grouped
indices below the largest multiple of the width that is ≤ k and the
remainder loop exactly the rest, and for every width `w > 0` (4 for the
scalar fallback, 8 for the SIMD variants) those two index lists
concatenate to exactly `[0, k)` — every index exactly once, none skipped,
none duplicated. -/
theorem kernel_index_coverage :
    (∀ (α : Type) (ops : ArithOps α) (a : List α) (a_base a_stride k : Nat) (b : List α),
        dot_fallback ops a a_base a_stride k b
          = foldSteps (addProdM ops a a_base a_stride b) ops.zero
              (grouped_indices 4 k ++ rem_indices 4 k))
    ∧ (∀ w k, 0 < w → grouped_indices w k ++ rem_indices w k = List.range k) :=
  ⟨fun _ ops a a_base a_stride k b => dot_fallback_eq_grouped ops a a_base a_stride k b,
    fun w k hw => grouped_rem_cover w k hw⟩

/-- C6 witness: width 8 at `k = 2*8+3 = 19`. -/
theorem kernel_index_coverage_witness :
    grouped_indices 8 19 ++ rem_indices 8 19 = List.range 19 :=
  kernel_index_coverage.2 8 19 (by decide)

/-- C7: over exact arithmetic, the three dot-product kernel variants all
compute `Σ_{ki<k} a[a_base + ki*a_stride] * b[ki]` whenever every read is
in bounds, hence they are equal to each other; any divergence in the
source can only come from floating-point rounding. -/
theorem kernel_variants_agree (a : List Int) (a_base a_stride k : Nat) (b : List Int)
    (hA : ∀ ki, ki < k → a_base + ki * a_stride < a.length)
    (hB : k ≤ b.length) :
    dot_product_f32_fallback a a_base a_stride k b = some (dotSum a a_base a_stride k b)
    ∧ dot_product_f32_simd_aarch64 a a_base a_stride k b
        = some (dotSum a a_base a_stride k b)
    ∧ dot_product_f32_simd_avx2 a a_base a_stride k b
        = some (dotSum a a_base a_stride k b) :=
  ⟨dot_product_f32_fallback_eq_dotSum a a_base a_stride k b hA (fun ki h => by omega),
    dot_product_f32_simd_aarch64_eq_dotSum a a_base a_stride k b hA (fun ki h => by omega),
    dot_product_f32_simd_avx2_eq_dotSum a a_base a_stride k b hA (fun ki h => by omega)⟩

/-- C7 witness: all three variants agree at `k = 11` (one full group of 8
plus a remainder of 3), stride 1. -/
theorem kernel_variants_agree_witness :
    dot_product_f32_fallback [1, 2, 3, 4, 5, 6, 7, 8, 9, 10, 11] 0 1 11
          [1, 1, 1, 1, 1, 1, 1, 1, 1, 1, 1]
        = some (dotSum [1, 2, 3, 4, 5, 6, 7, 8, 9, 10, 11] 0 1 11
          [1, 1, 1, 1, 1, 1, 1, 1, 1, 1, 1])
    ∧ dot_product_f32_simd_aarch64 [1, 2, 3, 4, 5, 6, 7, 8, 9, 10, 11] 0 1 11
          [1, 1, 1, 1, 1, 1, 1, 1, 1, 1, 1]
        = some (dotSum [1, 2, 3, 4, 5, 6, 7, 8, 9, 10, 11] 0 1 11
          [1, 1, 1, 1, 1, 1, 1, 1, 1, 1, 1])
    ∧ dot_product_f32_simd_avx2 [1, 2, 3, 4, 5, 6, 7, 8, 9, 10, 11] 0 1 11
          [1, 1, 1, 1, 1, 1, 1, 1, 1, 1, 1]
        = some (dotSum [1, 2, 3, 4, 5, 6, 7, 8, 9, 10, 11] 0 1 11
          [1, 1, 1, 1, 1, 1, 1, 1, 1, 1, 1]) :=
  kernel_variants_agree [1, 2, 3, 4, 5, 6, 7, 8, 9, 10, 11] 0 1 11
    [1, 1, 1, 1, 1, 1, 1, 1, 1, 1, 1]
    (by intro ki hki; show 0 + ki * 1 < 11; omega) (by decide)

/-- C8: the dot-product kernel is total under the orchestrator's
precondition — if `a_base + (k-1)*a_stride` is within `a` and `b` has at
least `k` elements, every read of every variant is in bounds and each
variant returns a value (no panic, no abort); the kernel itself contains
no validation that could reject the arguments. -/
theorem kernel_total_under_bounds (a : List Int) (a_base a_stride k : Nat) (b : List Int)
    (hA : 0 < k → a_base + (k - 1) * a_stride < a.length)
    (hB : k ≤ b.length) :
    (dot_product_f32 a a_base a_stride k b).isSome = true
    ∧ (dot_product_f32_fallback a a_base a_stride k b).isSome = true
    ∧ (dot_product_f32_simd_aarch64 a a_base a_stride k b).isSome = true
    ∧ (dot_product_f32_simd_avx2 a a_base a_stride k b).isSome = true := by
  have hA2 : ∀ ki, ki < k → a_base + ki * a_stride < a.length := by
    intro ki hki
    have h1 := hA (by omega)
    have h2 : ki * a_stride ≤ (k - 1) * a_stride := Nat.mul_le_mul_right _ (by omega)
    omega
  have hB2 : ∀ ki, ki < k → ki < b.length := fun ki h => by omega
  refine ⟨?_, ?_, ?_, ?_⟩
  · show (dot_product_f32_fallback a a_base a_stride k b).isSome = true
    rw [dot_product_f32_fallback_eq_dotSum a a_base a_stride k b hA2 hB2]
    rfl
  · rw [dot_product_f32_fallback_eq_dotSum a a_base a_stride k b hA2 hB2]
    rfl
  · rw [dot_product_f32_simd_aarch64_eq_dotSum a a_base a_stride k b hA2 hB2]
    rfl
  · rw [dot_product_f32_simd_avx2_eq_dotSum a a_base a_stride k b hA2 hB2]
    rfl

/-- C8 witness: a strided read pattern (`a_base = 1`, `a_stride = 2`,
`k = 5`) whose last read `1 + 4*2 = 9` is the final index of `a`. -/
theorem kernel_total_under_bounds_witness :
    (dot_product_f32 [0, 1, 2, 3, 4, 5, 6, 7, 8, 9] 1 2 5 [1, 1, 1, 1, 1]).isSome = true
    ∧ (dot_product_f32_fallback [0, 1, 2, 3, 4, 5, 6, 7, 8, 9] 1 2 5
        [1, 1, 1, 1, 1]).isSome = true
    ∧ (dot_product_f32_simd_aarch64 [0, 1, 2, 3, 4, 5, 6, 7, 8, 9] 1 2 5
        [1, 1, 1, 1, 1]).isSome = true
    ∧ (dot_product_f32_simd_avx2 [0, 1, 2, 3, 4, 5, 6, 7, 8, 9] 1 2 5
        [1, 1, 1, 1, 1]).isSome = true :=
  kernel_total_under_bounds [0, 1, 2, 3, 4, 5, 6, 7, 8, 9] 1 2 5 [1, 1, 1, 1, 1]
    (by intro h; show 1 + (5 - 1) * 2 < 10; omega) (by decide)

/-- C9: the spec's concrete scenario: `b = 2`, `m = 3`, `k = 4`, A the
row-major 3×4 matrix `[[1,2,3,4],[5,6,7,8],[9,10,11,12]]` repeated in both
batches (strides `[12,4,1]`), B `[1,0,0,0]` per batch; the output buffer
comes back `[1,5,9,1,5,9]`. -/
theorem concrete_scenario_b2_m3_k4 :
    batch_matmul_vec
        [1, 2, 3, 4, 5, 6, 7, 8, 9, 10, 11, 12, 1, 2, 3, 4, 5, 6, 7, 8, 9, 10, 11, 12]
        [1, 0, 0, 0, 1, 0, 0, 0] [0, 0, 0, 0, 0, 0]
        ⟨[2, 3, 4], [12, 4, 1]⟩ ⟨[2, 4], [4, 1]⟩
      = some (Except.ok [1, 5, 9, 1, 5, 9]) := by
  decide

/-- C10: whenever `batch_matmul_vec` returns at all (the model yields
`some r` rather than the `none` of a panic), the returned value is the
`Ok` variant: no execution path constructs the `Err` variant of the
declared `Result` channel. -/
theorem batch_matmul_vec_only_ok (a b c : List Int) (st1 st2 : TensorStrider)
    (r : Except CrabmlError (List Int))
    (h : batch_matmul_vec a b c st1 st2 = some r) :
    ∃ out, r = Except.ok out := by
  unfold batch_matmul_vec at h
  by_cases hc : bmv_checks st1 st2 = true
  · rw [if_pos hc] at h
    simp only [Option.bind_eq_some] at h
    obtain ⟨bs, -, ms, -, ks, -, out, -, hout⟩ := h
    exact ⟨out, (Option.some.inj hout).symm⟩
  · rw [if_neg hc] at h
    exact absurd h (by simp)

/-- C10 witness: a successful 1×1×1 call returns the `Ok` variant. -/
theorem batch_matmul_vec_only_ok_witness :
    ∃ out, (Except.ok [20] : Except CrabmlError (List Int)) = Except.ok out :=
  batch_matmul_vec_only_ok [4] [5] [0] ⟨[1, 1, 1], [1, 1, 1]⟩ ⟨[1, 1], [1, 1]⟩
    (Except.ok [20]) (by decide)

/-- C2 counterexample: the output-length invariant is NOT checked.  With
`b = 1`, `m = 2` (so `b*m = 2`) and an output buffer of length 1, the four
real assertions all pass and the call runs to completion, returning
`Ok` and writing the one existing slot — it does not abort. -/
theorem output_length_check_counterexample :
    ([0] : List Int).length ≠ 1 * 2
    ∧ batch_matmul_vec [10, 20] [3] [0] ⟨[1, 2, 1], [2, 1, 1]⟩ ⟨[1, 1], [1, 1]⟩
        = some (Except.ok [30]) :=
  ⟨by decide, by decide⟩

/-- C2 (amended): once per call, before any computation, `batch_matmul_vec`
checks the dimension counts, the batch-size match, the inner-dimension
match, and B's contiguity, and a violation of these aborts the call before
any output slot is written; the output-buffer length, however, is not
checked against `b*m` — a call whose output buffer has a different length
(here length 2 with `b*m = 3`) proceeds and fills the slots that exist. -/
theorem output_length_not_checked :
    (∀ (a b c : List Int) (st1 st2 : TensorStrider), bmv_checks st1 st2 = false →
        batch_matmul_vec a b c st1 st2 = none)
    ∧ (bmv_checks ⟨[1, 3, 1], [3, 1, 1]⟩ ⟨[1, 1], [1, 1]⟩ = true
        ∧ ([0, 0] : List Int).length ≠ 1 * 3
        ∧ batch_matmul_vec [7, 8, 9] [2] [0, 0] ⟨[1, 3, 1], [3, 1, 1]⟩ ⟨[1, 1], [1, 1]⟩
            = some (Except.ok [14, 16])) :=
  ⟨fun a b c st1 st2 h => batch_matmul_vec_none_of_checks_false a b c st1 st2 h,
    by decide, by decide, by decide⟩

/-- C2 witness: the checked part of the amended claim, applied to
descriptors whose shapes are empty. -/
theorem output_length_not_checked_witness :
    batch_matmul_vec [] [] [] ⟨[], []⟩ ⟨[], []⟩ = none :=
  output_length_not_checked.1 [] [] [] ⟨[], []⟩ ⟨[], []⟩ (by decide)

/-- C1: under the shape invariants (A described as 3-D `[b,m,k]` with
strides `[s0,s1,s2]`, B 2-D contiguous `[b,k]` backed by a buffer of
length `b*k`, output of length `b*m`) and with A's backing buffer large
enough for every indexed read, the call returns `Ok` and every output
slot `bi*m + mi` holds `Σ_{ki<k} a[bi*s0 + mi*s1 + ki*s2] * b[bi*k + ki]`
over exact arithmetic. -/
theorem batch_matmul_vec_computes_dot_products
    (a b c : List Int) (bsz m k s0 s1 s2 : Nat) (ss : List Nat)
    (hcont : TensorStrider.is_contiguous ⟨[bsz, k], ss⟩ = true)
    (hc : c.length = bsz * m)
    (hblen : b.length = bsz * k)
    (hA : ∀ bi mi ki, bi < bsz → mi < m → ki < k →
        bi * s0 + mi * s1 + ki * s2 < a.length) :
    ∃ out,
      batch_matmul_vec a b c ⟨[bsz, m, k], [s0, s1, s2]⟩ ⟨[bsz, k], ss⟩
          = some (Except.ok out)
        ∧ ∀ bi mi, bi < bsz → mi < m →
            out[bi * m + mi]?
              = some (((List.range k).map (fun ki =>
                  (a[bi * s0 + mi * s1 + ki * s2]?).getD 0
                    * (b[bi * k + ki]?).getD 0)).sum) := by
  have hchecks : bmv_checks ⟨[bsz, m, k], [s0, s1, s2]⟩ ⟨[bsz, k], ss⟩ = true := by
    unfold bmv_checks
    show (((3 : Nat) == 3) && ((2 : Nat) == 2) && (bsz == bsz) && (k == k) &&
        TensorStrider.is_contiguous ⟨[bsz, k], ss⟩) = true
    rw [hcont]
    simp
  have hred : batch_matmul_vec a b c ⟨[bsz, m, k], [s0, s1, s2]⟩ ⟨[bsz, k], ss⟩
      = (writeSlots
          (fun i =>
            let mi := (derive_mi_bi m i).1
            let bi := (derive_mi_bi m i).2
            (sliceRange b (bi * k) ((bi + 1) * k)).bind fun bslice =>
              dot_product_f32 a (bi * s0 + mi * s1) s2 k bslice)
          (List.range c.length)).bind fun out => some (Except.ok out) := by
    unfold batch_matmul_vec
    rw [if_pos hchecks]
    rfl
  rw [hred]
  have hbody : ∀ i, i ∈ List.range c.length →
      (fun i =>
        let mi := (derive_mi_bi m i).1
        let bi := (derive_mi_bi m i).2
        (sliceRange b (bi * k) ((bi + 1) * k)).bind fun bslice =>
          dot_product_f32 a (bi * s0 + mi * s1) s2 k bslice) i
        = some ((fun i => ((List.range k).map (fun ki =>
            (a[i / m * s0 + i % m * s1 + ki * s2]?).getD 0
              * (b[i / m * k + ki]?).getD 0)).sum) i) := by
    intro i hi
    rw [List.mem_range, hc] at hi
    have hm : 0 < m := by
      rcases Nat.eq_zero_or_pos m with h0 | h0
      · rw [h0, Nat.mul_zero] at hi; omega
      · exact h0
    have hbiv : (derive_mi_bi m i).2 = i / m := by
      show (i - i % m) / m = i / m
      rw [show i - i % m = m * (i / m) from by have := Nat.div_add_mod i m; omega,
        Nat.mul_div_cancel_left _ hm]
    have hmiv : (derive_mi_bi m i).1 = i % m := rfl
    have hmi_lt : i % m < m := Nat.mod_lt i hm
    have hbi_lt : i / m < bsz := by
      rw [Nat.div_lt_iff_lt_mul hm]; exact hi
    dsimp only
    rw [hbiv, hmiv]
    have hle1 : i / m * k ≤ (i / m + 1) * k := Nat.mul_le_mul_right k (by omega)
    have hle2 : (i / m + 1) * k ≤ b.length := by
      rw [hblen]; exact Nat.mul_le_mul_right k (by omega)
    have hkk : (i / m + 1) * k - i / m * k = k := by
      rw [Nat.succ_mul]; omega
    unfold sliceRange
    rw [if_pos ⟨hle1, hle2⟩, hkk, Option.some_bind]
    have hlen_bs : ((b.drop (i / m * k)).take k).length = k := by
      rw [List.length_take, List.length_drop, hblen]
      have h8 : (i / m + 1) * k = i / m * k + k := Nat.succ_mul _ _
      have h9 : (i / m + 1) * k ≤ bsz * k := by
        rw [← hblen]; exact hle2
      omega
    have hbs_at : ∀ ki, ki < k →
        ((b.drop (i / m * k)).take k)[ki]? = b[i / m * k + ki]? := by
      intro ki hki
      rw [List.getElem?_take, if_pos hki, List.getElem?_drop]
    show dot_product_f32 a (i / m * s0 + i % m * s1) s2 k ((b.drop (i / m * k)).take k)
        = _
    rw [show dot_product_f32 a (i / m * s0 + i % m * s1) s2 k ((b.drop (i / m * k)).take k)
        = dot_product_f32_fallback a (i / m * s0 + i % m * s1) s2 k
            ((b.drop (i / m * k)).take k) from rfl,
      dot_product_f32_fallback_eq_dotSum a _ s2 k _
        (fun ki hki => hA (i / m) (i % m) ki hbi_lt hmi_lt hki)
        (fun ki hki => by rw [hlen_bs]; exact hki)]
    congr 1
    unfold dotSum
    refine congrArg List.sum (List.map_congr_left ?_)
    intro ki hki
    rw [List.mem_range] at hki
    unfold prodAt
    rw [hbs_at ki hki]
  rw [writeSlots_eq_map _ (fun i => ((List.range k).map (fun ki =>
      (a[i / m * s0 + i % m * s1 + ki * s2]?).getD 0
        * (b[i / m * k + ki]?).getD 0)).sum) _ hbody, Option.some_bind]
  refine ⟨_, rfl, ?_⟩
  intro bi mi hbi hmi
  have hm : 0 < m := by omega
  have hidx : bi * m + mi < c.length := by
    rw [hc]
    have h2 : (bi + 1) * m ≤ bsz * m := Nat.mul_le_mul_right m (by omega)
    have h3 : (bi + 1) * m = bi * m + m := Nat.succ_mul bi m
    omega
  rw [List.getElem?_map, List.getElem?_range hidx]
  have hmod : (bi * m + mi) % m = mi := by
    rw [show bi * m = m * bi from Nat.mul_comm bi m, Nat.mul_add_mod,
      Nat.mod_eq_of_lt hmi]
  have hdiv : (bi * m + mi) / m = bi := by
    have h4 := Nat.div_add_mod (bi * m + mi) m
    rw [hmod] at h4
    have h5 : m * ((bi * m + mi) / m) = m * bi := by
      have h7 : m * bi = bi * m := Nat.mul_comm m bi
      omega
    exact Nat.eq_of_mul_eq_mul_left hm h5
  simp only [Option.map_some', hdiv, hmod]

/-- C1 witness: a 1×1×2 instance with a strided A (`s0 = s1 = 2`,
`s2 = 1`); the single output slot holds `3*5 + 4*6 = 39`. -/
theorem batch_matmul_vec_computes_dot_products_witness :
    ∃ out,
      batch_matmul_vec [3, 4] [5, 6] [0] ⟨[1, 1, 2], [2, 2, 1]⟩ ⟨[1, 2], [2, 1]⟩
          = some (Except.ok out)
        ∧ ∀ bi mi, bi < 1 → mi < 1 →
            out[bi * 1 + mi]?
              = some (((List.range 2).map (fun ki =>
                  (([3, 4] : List Int)[bi * 2 + mi * 2 + ki * 1]?).getD 0
                    * (([5, 6] : List Int)[bi * 2 + ki]?).getD 0)).sum) :=
  batch_matmul_vec_computes_dot_products [3, 4] [5, 6] [0] 1 1 2 2 2 1 [2, 1]
    (by decide) (by decide) (by decide)
    (by intro bi mi ki hbi hmi hki; show bi * 2 + mi * 2 + ki * 1 < 2; omega)
